import Mathlib

/-!
# Ward ranking and styling (chicagoworksforyou front end)

A shallow embedding of `frontend/src/js/services-landing.js` and of the
`ServiceMapCtrl` controller of `frontend/src/js/controllers.js`.

Modelling conventions.

* A JavaScript value that may be `undefined` is an `Option`; reading a property
  of `undefined` throws a `TypeError`, which is the only exception these
  functions can raise.
* Ward identifiers are integers.  The keys of the count response and of
  `wardPaths` are decimal numerals of ward numbers, `parseInt(path, 10)` is the
  integer they denote, and `wardNum == pair[0]` (number against numeral string)
  compares the denoted integers.
* The numbers `0.1`, `1` and `2` of the style options are rationals.
* A Leaflet layer group is the list of its layers in insertion order, which is
  the order `eachLayer` visits them in.
* `redrawChart` is the body of the `$.getJSON` success callback applied to the
  response.  The page state keeps the requests sent and not yet answered; a
  click and the arrival of an answer are separate turns of the event loop, so
  answers may arrive in any order.
* The map surface (`drawChicagoMap`, `addTo`) is outside the model.
-/

namespace ChicagoWorks

/-! ## Data -/

/-- One element of `_.pairs(response)`: `pair[0]` is the ward key, `pair[1]` the count. -/
abbrev Pair := Int × Int

/-- The exception raised by reading a property of `undefined`. -/
inductive JsError where
  | TypeError
deriving DecidableEq, Repr

/-- The object returned by `calculateLayerSettings`. -/
structure Settings where
  color : String
  fillOpacity : ℚ
deriving DecidableEq

/-- A ward boundary: the `wardPaths[path]` coordinate list. -/
abbrev LatLngs := List (ℚ × ℚ)

/-- A Leaflet polygon as the code builds it: its coordinates and its options. -/
structure Layer where
  latlngs : LatLngs
  id : Int
  opacity : ℚ
  weight : ℚ
  color : String
  fillOpacity : ℚ
  popup : String
deriving DecidableEq

/-- An entry of the service catalogue `serviceTypesJSON`. -/
structure ServiceType where
  code : String
  name : String
deriving DecidableEq

/-! ## Library functions -/

/-- Modelled from the spec: `_.sortBy` of the Underscore library, which is not
part of the sources; an ascending sort by the criterion that keeps the input
order of elements with equal criteria. -/
def sortBy {α : Type} (criterion : α → Int) (list : List α) : List α :=
  List.insertionSort (fun a b => criterion a ≤ criterion b) list

/-- Modelled from the spec: `Array.prototype.slice(start, end)` for
`0 ≤ start ≤ end`, the elements at positions `start .. end - 1` that exist. -/
def slice {α : Type} (start stop : Nat) (list : List α) : List α :=
  (list.drop start).take (stop - start)

/-- Modelled from the spec: `layer.setStyle(style)` of Leaflet, which is not
part of the sources; it overwrites the options named in `style` and keeps the
others. -/
def Layer.setStyle (layer : Layer) (style : Settings) : Layer :=
  { layer with color := style.color, fillOpacity := style.fillOpacity }

/-- Modelled from the spec: `L.polygon(latlngs, options)` of Leaflet followed by
`bindPopup`, with `options` the `$.extend` of `id`, `opacity: 1`, `weight: 2` by
the computed settings: a new polygon carrying the merged options. -/
def polygon (latlngs : LatLngs) (wardNum : Int) (settings : Settings) : Layer :=
  { latlngs := latlngs
    id := wardNum
    opacity := 1
    weight := 2
    color := settings.color
    fillOpacity := settings.fillOpacity
    popup := "<a href=\"/wards/" ++ toString wardNum ++ "/\">Ward " ++ toString wardNum ++ "</a>" }

/-- JavaScript array indexing by a number: `undefined` outside the array. -/
def index {α : Type} (list : List α) (i : Int) : Option α :=
  if i < 0 then none else list[i.toNat]?

/-! ## services-landing.js -/

/-- Source function `calculateLayerSettings(wardNum, highest, lowest)`. -/
def calculateLayerSettings (wardNum : Int) (highest lowest : Option Pair) :
    Except JsError Settings :=
  let fillOp : ℚ := 0.1
  let col : String := "#0873AD"
  match lowest with
  | none => .error .TypeError
  | some lo =>
    if wardNum = lo.1 then
      .ok { color := col, fillOpacity := 1 }
    else
      match highest with
      | none => .error .TypeError
      | some hi =>
        if wardNum = hi.1 then
          .ok { color := "black", fillOpacity := 1 }
        else
          .ok { color := col, fillOpacity := fillOp }

/-- The ranking lines of the success callback (`counts`, `sorted`, `lowest`,
`highest`), shared verbatim by `redrawChart` and `$scope.updateST`; the result
is `(lowest, highest)`. -/
def ranking (response : List Pair) : Option Pair × Option Pair :=
  let counts := slice 1 51 response
  let sorted := sortBy (fun pair => pair.2) counts
  let lowest := sorted[0]?
  let highest := sorted[49]?
  (lowest, highest)

/-- The first-draw loop `for (var path in wardPaths)`: one polygon per ward path is
added to `allWards`; an exception leaves the layers added so far. -/
def buildLoop (highest lowest : Option Pair) :
    List (Int × LatLngs) → List Layer → List Layer × Option JsError
  | [], allWards => (allWards, none)
  | (wardNum, path) :: rest, allWards =>
    match calculateLayerSettings wardNum highest lowest with
    | .error e => (allWards, some e)
    | .ok settings => buildLoop highest lowest rest (allWards ++ [polygon path wardNum settings])

/-- The restyle loop `allWards.eachLayer(...)`: every layer visited before an
exception has its style set; the layers from the failing one on are untouched. -/
def restyleLoop (highest lowest : Option Pair) : List Layer → List Layer × Option JsError
  | [] => ([], none)
  | layer :: rest =>
    match calculateLayerSettings layer.id highest lowest with
    | .error e => (layer :: rest, some e)
    | .ok settings =>
      let r := restyleLoop highest lowest rest
      (layer.setStyle settings :: r.1, r.2)

/-- Source function `redrawChart(stCode, isRedraw)`, from the response on: the
new content of `allWards` and the exception that ended the callback, if any. -/
def redrawChart (wardPaths : List (Int × LatLngs)) (response : List Pair) (isRedraw : Bool)
    (allWards : List Layer) : List Layer × Option JsError :=
  let r := ranking response
  let lowest := r.1
  let highest := r.2
  if !isRedraw then
    buildLoop highest lowest wardPaths allWards
  else
    restyleLoop highest lowest allWards

/-- The page state of services-landing.js.  `pending` holds the `$.getJSON`
requests sent and not yet answered, oldest first, each as the `stCode` and the
`isRedraw` its success callback closes over. -/
structure Session where
  stIndex : Int
  heading : String
  allWards : List Layer
  pending : List (String × Bool)
deriving DecidableEq

/-- Source function `updateST(i)`: it sets the heading and sends the request of
`redrawChart(st.code, true)`; the callback runs later, see `callback`. -/
def updateST (serviceTypes : List (String × ServiceType)) (i : Int) (s : Session) :
    Session × Option JsError :=
  match index serviceTypes i with
  | none => (s, some .TypeError)
  | some entry =>
    let st := entry.2
    ({ s with heading := st.name, pending := s.pending ++ [(st.code, true)] }, none)

/-- The answer to the `k`-th pending request arrives: the success callback of
`redrawChart` runs on the response of the count source `fetch` for that service
code, and the request leaves `pending`. -/
def callback (fetch : String → List Pair) (wardPaths : List (Int × LatLngs)) (k : Nat)
    (s : Session) : Session × Option JsError :=
  match s.pending[k]? with
  | none => (s, none)
  | some request =>
    let r := redrawChart wardPaths (fetch request.1) request.2 s.allWards
    ({ s with allWards := r.1, pending := s.pending.eraseIdx k }, r.2)

/-- What the event loop can run: a click on either navigation link, or the
arrival of the answer to the `k`-th pending request. -/
inductive Event where
  | prevST
  | nextST
  | response (k : Nat)
deriving DecidableEq, Repr

/-- One turn of the event loop: the click handlers `updateST(--stIndex)` and
`updateST(++stIndex)`, or a success callback. -/
def step (serviceTypes : List (String × ServiceType)) (fetch : String → List Pair)
    (wardPaths : List (Int × LatLngs)) (e : Event) (s : Session) : Session × Option JsError :=
  match e with
  | .prevST =>
    let s1 := { s with stIndex := s.stIndex - 1 }
    updateST serviceTypes s1.stIndex s1
  | .nextST =>
    let s1 := { s with stIndex := s.stIndex + 1 }
    updateST serviceTypes s1.stIndex s1
  | .response k => callback fetch wardPaths k s

/-- A sequence of turns; an exception ends its own turn only. -/
def run (serviceTypes : List (String × ServiceType)) (fetch : String → List Pair)
    (wardPaths : List (Int × LatLngs)) : List Event → Session → Session
  | [], s => s
  | e :: es, s => run serviceTypes fetch wardPaths es (step serviceTypes fetch wardPaths e s).1

/-- Three next clicks and two previous clicks, each answered before the next click. -/
def answeredClicks : List Event :=
  [Event.nextST, Event.response 0, Event.nextST, Event.response 0, Event.nextST,
   Event.response 0, Event.prevST, Event.response 0, Event.prevST, Event.response 0]

/-- The same five clicks, all made before any answer arrives; the answers then
come in the order service 1, 2, 3, 1, 2. -/
def overlappingClicks : List Event :=
  [Event.nextST, Event.nextST, Event.nextST, Event.prevST, Event.prevST,
   Event.response 0, Event.response 0, Event.response 0, Event.response 1, Event.response 0]

/-! ## controllers.js -/

/-- Source function `$scope.calculateLayerSettings(wardNum, highest, lowest)`. -/
def scopeCalculateLayerSettings (wardNum : Int) (highest lowest : Option Pair) :
    Except JsError Settings :=
  let fillOp : ℚ := 0.1
  let col : String := "#0873AD"
  match lowest with
  | none => .error .TypeError
  | some lo =>
    if wardNum = lo.1 then
      .ok { color := col, fillOpacity := 1 }
    else
      match highest with
      | none => .error .TypeError
      | some hi =>
        if wardNum = hi.1 then
          .ok { color := "black", fillOpacity := 1 }
        else
          .ok { color := col, fillOpacity := fillOp }

/-- The first-draw loop of `$scope.updateST`, which styles through
`$scope.calculateLayerSettings`. -/
def scopeBuildLoop (highest lowest : Option Pair) :
    List (Int × LatLngs) → List Layer → List Layer × Option JsError
  | [], allWards => (allWards, none)
  | (wardNum, path) :: rest, allWards =>
    match scopeCalculateLayerSettings wardNum highest lowest with
    | .error e => (allWards, some e)
    | .ok settings =>
      scopeBuildLoop highest lowest rest (allWards ++ [polygon path wardNum settings])

/-- Source function `$scope.updateST(isRedraw)`, from the response on.  The
first-draw branch starts from a fresh `L.layerGroup()`; the restyle branch calls
the global `calculateLayerSettings`. -/
def scopeUpdateST (wardPaths : List (Int × LatLngs)) (response : List Pair) (isRedraw : Bool)
    (allWards : List Layer) : List Layer × Option JsError :=
  let r := ranking response
  let lowest := r.1
  let highest := r.2
  if !isRedraw then
    scopeBuildLoop highest lowest wardPaths []
  else
    restyleLoop highest lowest allWards

/-! ## Test data -/

/-- The series of Scenario A: an aggregate followed by wards 1..50 with counts 10, 20, .., 500. -/
def scenarioA : List Pair :=
  (0, 999) :: (List.range 50).map (fun k => ((k : Int) + 1, 10 * ((k : Int) + 1)))

/-- The series of Scenario B: an aggregate followed by wards 1..50, every count 42. -/
def scenarioB : List Pair :=
  (0, 999) :: (List.range 50).map (fun k => ((k : Int) + 1, 42))

/-- A descending series: an aggregate followed by wards 1..50 with counts 500, 490, .., 10. -/
def scenarioDesc : List Pair :=
  (0, 999) :: (List.range 50).map (fun k => ((k : Int) + 1, 500 - 10 * (k : Int)))

/-- The series of Scenario D: the aggregate and the first 40 wards of Scenario A. -/
def scenarioD : List Pair := scenarioA.take 41

/-- Three ward paths, to build small layer sets from. -/
def wardPathsSample : List (Int × LatLngs) :=
  [(1, [(0, 0), (0, 1), (1, 1)]), (2, [(1, 1), (1, 2), (2, 2)]), (3, [(2, 2), (2, 3), (3, 3)])]

/-- A catalogue of four service types. -/
def serviceTypesSample : List (String × ServiceType) :=
  [("graffiti_removal", { code := "a", name := "Graffiti Removal" }),
   ("pot_holes", { code := "b", name := "Pot Holes" }),
   ("rodent_baiting", { code := "c", name := "Rodent Baiting" }),
   ("tree_trim", { code := "d", name := "Tree Trim" })]

/-- A series with one peak: an aggregate followed by wards 1..50 with count 42, but 900 for ward 2. -/
def scenarioPeak : List Pair :=
  (0, 999) :: (List.range 50).map (fun k => ((k : Int) + 1, if k = 1 then 900 else 42))

/-- A count source for the sample catalogue. -/
def fetchSample (code : String) : List Pair :=
  if code = "b" then scenarioA else if code = "c" then scenarioDesc else scenarioB

/-- A count source whose answer for service 1 is the short series of Scenario D. -/
def fetchShort (code : String) : List Pair :=
  if code = "b" then scenarioD else if code = "c" then scenarioPeak else scenarioB

/-- The page after its first draw on the sample data. -/
def sessionSample : Session :=
  { stIndex := 0
    heading := "Graffiti Removal"
    allWards := (redrawChart wardPathsSample (fetchSample "a") false []).1
    pending := [] }

/-! ## Sorting lemmas -/

theorem sortBy_cons {α : Type} (f : α → Int) (a : α) (l : List α) :
    sortBy f (a :: l) = List.orderedInsert (fun x y => f x ≤ f y) a (sortBy f l) := rfl

theorem sortBy_perm {α : Type} (f : α → Int) (l : List α) : (sortBy f l).Perm l :=
  List.perm_insertionSort _ l

theorem sortBy_length {α : Type} (f : α → Int) (l : List α) : (sortBy f l).length = l.length :=
  (sortBy_perm f l).length_eq

theorem head_orderedInsert {α : Type} (f : α → Int) (a : α) (s : List α) :
    (List.orderedInsert (fun x y => f x ≤ f y) a s)[0]? =
      some (match s[0]? with
        | none => a
        | some b => if f a ≤ f b then a else b) := by
  cases s with
  | nil => simp
  | cons b t =>
    by_cases h : f a ≤ f b <;> simp [List.orderedInsert, h]

theorem orderedInsert_append {α : Type} (f : α → Int) (a : α) (s : List α)
    (h : ∀ b ∈ s, f b < f a) :
    List.orderedInsert (fun x y => f x ≤ f y) a s = s ++ [a] := by
  induction s with
  | nil => simp
  | cons b t ih =>
    have hb : ¬ f a ≤ f b := not_le.mpr (h b (List.mem_cons_self b t))
    simp [List.orderedInsert, hb, ih (fun c hc => h c (List.mem_cons_of_mem b hc))]

theorem getLast_cons_of_ne_nil {α : Type} (b : α) (l : List α) (h : l ≠ []) :
    (b :: l).getLast? = l.getLast? := by
  cases l with
  | nil => exact absurd rfl h
  | cons c u => simp [List.getLast?_cons_cons]

theorem getLast_orderedInsert {α : Type} (f : α → Int) (a : α) (s : List α)
    (h : ∃ b ∈ s, f a ≤ f b) :
    (List.orderedInsert (fun x y => f x ≤ f y) a s).getLast? = s.getLast? := by
  induction s with
  | nil => simp at h
  | cons b t ih =>
    by_cases hb : f a ≤ f b
    · simp [List.orderedInsert, hb, List.getLast?_cons_cons]
    · have ht : ∃ c ∈ t, f a ≤ f c := by
        obtain ⟨c, hc, hac⟩ := h
        rcases List.mem_cons.mp hc with rfl | hc
        · exact absurd hac hb
        · exact ⟨c, hc, hac⟩
      have hne : t ≠ [] := by
        obtain ⟨c, hc, _⟩ := ht
        exact List.ne_nil_of_mem hc
      have hne2 : List.orderedInsert (fun x y => f x ≤ f y) a t ≠ [] := by
        intro h0
        have := congrArg List.length h0
        simp [List.orderedInsert_length] at this
      have hstep : List.orderedInsert (fun x y => f x ≤ f y) a (b :: t) =
          b :: List.orderedInsert (fun x y => f x ≤ f y) a t := by
        simp [List.orderedInsert, hb]
      rw [hstep, getLast_cons_of_ne_nil b _ hne2, getLast_cons_of_ne_nil b _ hne, ih ht]

/-- The first element of the sorted list is the earliest element of minimum criterion. -/
theorem sortBy_head {α : Type} (f : α → Int) (l : List α) (hl : l ≠ []) :
    ∃ (i : Nat) (x : α), l[i]? = some x ∧ (sortBy f l)[0]? = some x ∧
      (∀ (k : Nat) (y : α), l[k]? = some y → f x ≤ f y) ∧
      (∀ (k : Nat) (y : α), k < i → l[k]? = some y → f x < f y) := by
  induction l with
  | nil => exact absurd rfl hl
  | cons a t ih =>
    by_cases ht : t = []
    · subst ht
      refine ⟨0, a, rfl, rfl, ?_, ?_⟩
      · intro k y hk
        cases k with
        | zero => simp at hk; subst hk; exact le_refl _
        | succ k => simp at hk
      · intro k y hk
        exact absurd hk (Nat.not_lt_zero k)
    · obtain ⟨i, x, hix, hhead, hmin, hbefore⟩ := ih ht
      rw [sortBy_cons, head_orderedInsert, hhead]
      by_cases hax : f a ≤ f x
      · refine ⟨0, a, by simp, by simp [hax], ?_, ?_⟩
        · intro k y hk
          cases k with
          | zero => simp at hk; subst hk; exact le_refl _
          | succ k =>
            have hk' : t[k]? = some y := by simpa using hk
            exact le_trans hax (hmin k y hk')
        · intro k y hk
          exact absurd hk (Nat.not_lt_zero k)
      · refine ⟨i + 1, x, by simpa using hix, by simp [hax], ?_, ?_⟩
        · intro k y hk
          cases k with
          | zero => simp at hk; subst hk; exact le_of_lt (not_le.mp hax)
          | succ k =>
            have hk' : t[k]? = some y := by simpa using hk
            exact hmin k y hk'
        · intro k y hki hk
          cases k with
          | zero => simp at hk; subst hk; exact not_le.mp hax
          | succ k =>
            have hk' : t[k]? = some y := by simpa using hk
            exact hbefore k y (Nat.lt_of_succ_lt_succ hki) hk'

/-- The last element of the sorted list is the latest element of maximum criterion. -/
theorem sortBy_last {α : Type} (f : α → Int) (l : List α) (hl : l ≠ []) :
    ∃ (j : Nat) (x : α), l[j]? = some x ∧ (sortBy f l).getLast? = some x ∧
      (∀ (k : Nat) (y : α), l[k]? = some y → f y ≤ f x) ∧
      (∀ (k : Nat) (y : α), j < k → l[k]? = some y → f y < f x) := by
  induction l with
  | nil => exact absurd rfl hl
  | cons a t ih =>
    by_cases ht : t = []
    · subst ht
      refine ⟨0, a, rfl, rfl, ?_, ?_⟩
      · intro k y hk
        cases k with
        | zero => simp at hk; subst hk; exact le_refl _
        | succ k => simp at hk
      · intro k y hjk hk
        cases k with
        | zero => exact absurd hjk (Nat.lt_irrefl 0)
        | succ k => simp at hk
    · obtain ⟨j, x, hjx, hlast, hmax, hafter⟩ := ih ht
      have hxmem : x ∈ sortBy f t :=
        (sortBy_perm f t).mem_iff.mpr (List.mem_iff_getElem?.mpr ⟨j, hjx⟩)
      rw [sortBy_cons]
      by_cases hxa : f x < f a
      · have hall : ∀ b ∈ sortBy f t, f b < f a := by
          intro b hb
          obtain ⟨k, hk⟩ := List.mem_iff_getElem?.mp ((sortBy_perm f t).mem_iff.mp hb)
          exact lt_of_le_of_lt (hmax k b hk) hxa
        rw [orderedInsert_append f a _ hall]
        refine ⟨0, a, by simp, by simp, ?_, ?_⟩
        · intro k y hk
          cases k with
          | zero => simp at hk; subst hk; exact le_refl _
          | succ k =>
            have hk' : t[k]? = some y := by simpa using hk
            exact le_of_lt (lt_of_le_of_lt (hmax k y hk') hxa)
        · intro k y hjk hk
          cases k with
          | zero => exact absurd hjk (Nat.lt_irrefl 0)
          | succ k =>
            have hk' : t[k]? = some y := by simpa using hk
            exact lt_of_le_of_lt (hmax k y hk') hxa
      · have hax : f a ≤ f x := not_lt.mp hxa
        rw [getLast_orderedInsert f a _ ⟨x, hxmem, hax⟩, hlast]
        refine ⟨j + 1, x, by simpa using hjx, rfl, ?_, ?_⟩
        · intro k y hk
          cases k with
          | zero => simp at hk; subst hk; exact hax
          | succ k =>
            have hk' : t[k]? = some y := by simpa using hk
            exact hmax k y hk'
        · intro k y hjk hk
          cases k with
          | zero => exact absurd hjk (Nat.not_lt_zero _)
          | succ k =>
            have hk' : t[k]? = some y := by simpa using hk
            exact hafter k y (Nat.lt_of_succ_lt_succ hjk) hk'

/-! ## Slicing lemmas -/

theorem getElem_slice {α : Type} (l : List α) (k : Nat) :
    (slice 1 51 l)[k]? = if k < 50 then l[k + 1]? else none := by
  unfold slice
  by_cases hk : k < 50
  · simp [hk, List.getElem?_take, List.getElem?_drop, Nat.add_comm]
  · simp [hk, List.getElem?_take]

theorem length_slice {α : Type} (l : List α) : (slice 1 51 l).length = min 50 (l.length - 1) := by
  simp [slice]

theorem slice_ne_nil {α : Type} (l : List α) (h : 2 ≤ l.length) : slice 1 51 l ≠ [] := by
  intro h0
  have := congrArg List.length h0
  rw [length_slice] at this
  simp at this
  omega

/-- A slice element is a response element at a position from 1 to 50. -/
theorem slice_index {α : Type} (l : List α) (k : Nat) (x : α) (h : (slice 1 51 l)[k]? = some x) :
    k < 50 ∧ l[k + 1]? = some x := by
  rw [getElem_slice] at h
  by_cases hk : k < 50
  · simpa [hk] using h
  · simp [hk] at h

theorem slice_of_index {α : Type} (l : List α) (k : Nat) (x : α) (h1 : 1 ≤ k) (h2 : k ≤ 50)
    (h : l[k]? = some x) : (slice 1 51 l)[k - 1]? = some x := by
  rw [getElem_slice]
  have hk : k - 1 < 50 := by omega
  have hk' : k - 1 + 1 = k := by omega
  simp [hk, hk', h]

/-- The lowest entry of any response with a ward entry: it exists, sits at a
position from 1 to 50, is the earliest one of minimum count there. -/
theorem ranking_lowest (response : List Pair) (h : 2 ≤ response.length) :
    ∃ (i : Nat) (lo : Pair), 1 ≤ i ∧ i ≤ 50 ∧ response[i]? = some lo ∧
      (ranking response).1 = some lo ∧
      (∀ (k : Nat) (e : Pair), 1 ≤ k → k ≤ 50 → response[k]? = some e → lo.2 ≤ e.2) ∧
      (∀ (k : Nat) (e : Pair), 1 ≤ k → k < i → response[k]? = some e → lo.2 < e.2) := by
  obtain ⟨i, x, hix, hhead, hmin, hbefore⟩ :=
    sortBy_head (fun pair : Pair => pair.2) (slice 1 51 response) (slice_ne_nil response h)
  obtain ⟨hi50, hresp⟩ := slice_index response i x hix
  refine ⟨i + 1, x, by omega, by omega, hresp, hhead, ?_, ?_⟩
  · intro k e hk1 hk2 hke
    exact hmin (k - 1) e (slice_of_index response k e hk1 hk2 hke)
  · intro k e hk1 hki hke
    exact hbefore (k - 1) e (by omega) (slice_of_index response k e hk1 (by omega) hke)

/-- The highest entry of a response with 50 ward entries: it exists, sits at a
position from 1 to 50, is the latest one of maximum count there. -/
theorem ranking_highest (response : List Pair) (h : 51 ≤ response.length) :
    ∃ (j : Nat) (hi : Pair), 1 ≤ j ∧ j ≤ 50 ∧ response[j]? = some hi ∧
      (ranking response).2 = some hi ∧
      (∀ (k : Nat) (e : Pair), 1 ≤ k → k ≤ 50 → response[k]? = some e → e.2 ≤ hi.2) ∧
      (∀ (k : Nat) (e : Pair), j < k → k ≤ 50 → response[k]? = some e → e.2 < hi.2) := by
  obtain ⟨j, x, hjx, hlast, hmax, hafter⟩ :=
    sortBy_last (fun pair : Pair => pair.2) (slice 1 51 response)
      (slice_ne_nil response (by omega))
  obtain ⟨hj50, hresp⟩ := slice_index response j x hjx
  have hlen : (sortBy (fun pair : Pair => pair.2) (slice 1 51 response)).length = 50 := by
    rw [sortBy_length, length_slice]; omega
  have h49 : (sortBy (fun pair : Pair => pair.2) (slice 1 51 response))[49]? = some x := by
    rw [← hlast, List.getLast?_eq_getElem?, hlen]
  refine ⟨j + 1, x, by omega, by omega, hresp, h49, ?_, ?_⟩
  · intro k e hk1 hk2 hke
    exact hmax (k - 1) e (slice_of_index response k e hk1 hk2 hke)
  · intro k e hjk hk2 hke
    exact hafter (k - 1) e (by omega) (slice_of_index response k e (by omega) hk2 hke)

/-- With fewer than 50 ward entries `sorted[49]` is `undefined`. -/
theorem ranking_highest_none (response : List Pair) (h : response.length < 51) :
    (ranking response).2 = none := by
  have hlen : (sortBy (fun pair : Pair => pair.2) (slice 1 51 response)).length < 50 := by
    rw [sortBy_length, length_slice]; omega
  show (sortBy (fun pair : Pair => pair.2) (slice 1 51 response))[49]? = none
  exact List.getElem?_eq_none (by omega)

/-- With no ward entry `sorted[0]` is `undefined`. -/
theorem ranking_lowest_none (response : List Pair) (h : response.length ≤ 1) :
    (ranking response).1 = none := by
  have hlen : (sortBy (fun pair : Pair => pair.2) (slice 1 51 response)).length = 0 := by
    rw [sortBy_length, length_slice]; omega
  show (sortBy (fun pair : Pair => pair.2) (slice 1 51 response))[0]? = none
  exact List.getElem?_eq_none (by omega)

theorem keys_ne (l : List Pair) (hk : (l.map Prod.fst).Nodup) (a b : Nat) (x y : Pair)
    (hab : a < b) (ha : l[a]? = some x) (hb : l[b]? = some y) : x.1 ≠ y.1 := by
  intro heq
  obtain ⟨hb', _⟩ := List.getElem?_eq_some_iff.mp hb
  have h := List.nodup_iff_getElem?_ne_getElem?.mp hk a b hab (by simpa using hb')
  apply h
  simp [List.getElem?_map, ha, hb, heq]

/-- The extremes the ranking yields from distinct ward keys are two different wards. -/
theorem ranking_ids_differ (response : List Pair) (lowest highest : Pair)
    (hkeys : (response.map Prod.fst).Nodup)
    (hr : ranking response = (some lowest, some highest)) : lowest.1 ≠ highest.1 := by
  have h0 : (sortBy (fun pair : Pair => pair.2) (slice 1 51 response))[0]? = some lowest :=
    congrArg Prod.fst hr
  have h49 : (sortBy (fun pair : Pair => pair.2) (slice 1 51 response))[49]? = some highest :=
    congrArg Prod.snd hr
  have hsub : (slice 1 51 response).Sublist response :=
    (List.take_sublist _ _).trans (List.drop_sublist _ _)
  have hslice : ((slice 1 51 response).map Prod.fst).Nodup := hkeys.sublist (hsub.map _)
  have hsorted : ((sortBy (fun pair : Pair => pair.2) (slice 1 51 response)).map Prod.fst).Nodup :=
    ((sortBy_perm _ _).map Prod.fst).nodup_iff.mpr hslice
  exact keys_ne _ hsorted 0 49 lowest highest (by omega) h0 h49

theorem mem_slice_of_index {α : Type} (l : List α) (k : Nat) (x : α) (h1 : 1 ≤ k) (h2 : k ≤ 50)
    (h : l[k]? = some x) : x ∈ slice 1 51 l :=
  List.mem_iff_getElem?.mpr ⟨k - 1, slice_of_index l k x h1 h2 h⟩

theorem fillOpacity_full_iff (w : Int) (highest lowest : Pair) :
    ∃ s : Settings, calculateLayerSettings w (some highest) (some lowest) = .ok s ∧
      (s.fillOpacity = 1 ↔ (w = lowest.1 ∨ w = highest.1)) := by
  unfold calculateLayerSettings
  simp only []
  by_cases h1 : w = lowest.1
  · rw [if_pos h1]
    exact ⟨_, rfl, by simp [h1]⟩
  · rw [if_neg h1]
    by_cases h2 : w = highest.1
    · rw [if_pos h2]
      exact ⟨_, rfl, by simp [h2]⟩
    · rw [if_neg h2]
      refine ⟨_, rfl, ?_⟩
      simp only [h1, h2, or_self, iff_false]
      norm_num

/-! ## Restyle and build loops -/

theorem calculateLayerSettings_ok (w : Int) (highest lowest : Pair) :
    ∃ s : Settings, calculateLayerSettings w (some highest) (some lowest) = .ok s := by
  obtain ⟨s, hs, _⟩ := fillOpacity_full_iff w highest lowest
  exact ⟨s, hs⟩

theorem setStyle_id (layer : Layer) (s : Settings) : (layer.setStyle s).id = layer.id := rfl

theorem setStyle_setStyle (layer : Layer) (s : Settings) :
    (layer.setStyle s).setStyle s = layer.setStyle s := rfl

theorem restyleLoop_cons_ok (highest lowest : Option Pair) (layer : Layer) (rest : List Layer)
    (s : Settings) (h : calculateLayerSettings layer.id highest lowest = .ok s) :
    restyleLoop highest lowest (layer :: rest) =
      (layer.setStyle s :: (restyleLoop highest lowest rest).1,
        (restyleLoop highest lowest rest).2) := by
  simp [restyleLoop, h]

theorem restyleLoop_cons_error (highest lowest : Option Pair) (layer : Layer)
    (rest : List Layer) (e : JsError)
    (h : calculateLayerSettings layer.id highest lowest = .error e) :
    restyleLoop highest lowest (layer :: rest) = (layer :: rest, some e) := by
  simp [restyleLoop, h]

theorem restyleLoop_idem (highest lowest : Option Pair) (ls : List Layer) :
    restyleLoop highest lowest (restyleLoop highest lowest ls).1 =
      restyleLoop highest lowest ls := by
  induction ls with
  | nil => rfl
  | cons layer rest ih =>
    cases hc : calculateLayerSettings layer.id highest lowest with
    | error e =>
      rw [restyleLoop_cons_error highest lowest layer rest e hc]
      exact restyleLoop_cons_error highest lowest layer rest e hc
    | ok s =>
      rw [restyleLoop_cons_ok highest lowest layer rest s hc]
      have hc' : calculateLayerSettings (layer.setStyle s).id highest lowest = .ok s := hc
      rw [restyleLoop_cons_ok highest lowest (layer.setStyle s) _ s hc', ih, setStyle_setStyle]

/-- The restyle loop keeps everything but `color` and `fillOpacity`, whatever its outcome. -/
theorem restyleLoop_frame (highest lowest : Option Pair) (ls : List Layer) :
    (restyleLoop highest lowest ls).1.map
        (fun l => (l.latlngs, l.id, l.opacity, l.weight, l.popup)) =
      ls.map (fun l => (l.latlngs, l.id, l.opacity, l.weight, l.popup)) := by
  induction ls with
  | nil => rfl
  | cons layer rest ih =>
    cases hc : calculateLayerSettings layer.id highest lowest with
    | error e => rw [restyleLoop_cons_error highest lowest layer rest e hc]
    | ok s =>
      rw [restyleLoop_cons_ok highest lowest layer rest s hc]
      simp only [List.map_cons, ih]
      rfl

theorem restyleLoop_no_error (highest lowest : Pair) (ls : List Layer) :
    (restyleLoop (some highest) (some lowest) ls).2 = none := by
  induction ls with
  | nil => rfl
  | cons layer rest ih =>
    obtain ⟨s, hs⟩ := calculateLayerSettings_ok layer.id highest lowest
    rw [restyleLoop_cons_ok _ _ layer rest s hs]
    exact ih

/-- A restyle loop that completes yields a result fixed by the frames of the layers. -/
theorem restyleLoop_congr (highest lowest : Option Pair) (ls ls' : List Layer)
    (hframe : ls'.map (fun l => (l.latlngs, l.id, l.opacity, l.weight, l.popup)) =
      ls.map (fun l => (l.latlngs, l.id, l.opacity, l.weight, l.popup)))
    (hok : (restyleLoop highest lowest ls).2 = none) :
    restyleLoop highest lowest ls' = restyleLoop highest lowest ls := by
  induction ls generalizing ls' with
  | nil =>
    have : ls' = [] := by simpa using hframe
    rw [this]
  | cons a t ih =>
    cases ls' with
    | nil => simp at hframe
    | cons b t' =>
      simp only [List.map_cons, List.cons.injEq, Prod.mk.injEq] at hframe
      obtain ⟨⟨h1, h2, h3, h4, h5⟩, htail⟩ := hframe
      cases hc : calculateLayerSettings a.id highest lowest with
      | error e =>
        rw [restyleLoop_cons_error highest lowest a t e hc] at hok
        simp at hok
      | ok s =>
        have hc' : calculateLayerSettings b.id highest lowest = .ok s := by rw [h2]; exact hc
        rw [restyleLoop_cons_ok highest lowest a t s hc] at hok ⊢
        rw [restyleLoop_cons_ok highest lowest b t' s hc', ih t' htail hok]
        have hab : b.setStyle s = a.setStyle s := by
          cases a; cases b
          simp only [Layer.setStyle, Layer.mk.injEq]
          simp_all
        rw [hab]

theorem restyleLoop_short (lowest : Option Pair) (ls : List Layer) :
    restyleLoop none lowest ls =
      ((ls.takeWhile (fun l => decide (lowest.map Prod.fst = some l.id))).map
          (fun l => l.setStyle { color := "#0873AD", fillOpacity := 1 }) ++
        ls.dropWhile (fun l => decide (lowest.map Prod.fst = some l.id)),
       if ls.dropWhile (fun l => decide (lowest.map Prod.fst = some l.id)) = [] then none
       else some JsError.TypeError) := by
  induction ls with
  | nil => rfl
  | cons layer rest ih =>
    cases lowest with
    | none =>
      have hc : calculateLayerSettings layer.id none none = .error .TypeError := rfl
      rw [restyleLoop_cons_error none none layer rest _ hc]
      simp [List.takeWhile, List.dropWhile]
    | some lo =>
      by_cases hid : layer.id = lo.1
      · have hc : calculateLayerSettings layer.id none (some lo) =
            .ok { color := "#0873AD", fillOpacity := 1 } := by
          simp [calculateLayerSettings, hid]
        rw [restyleLoop_cons_ok none (some lo) layer rest _ hc, ih]
        simp [List.takeWhile, List.dropWhile, hid]
      · have hc : calculateLayerSettings layer.id none (some lo) = .error .TypeError := by
          simp [calculateLayerSettings, hid]
        rw [restyleLoop_cons_error none (some lo) layer rest _ hc]
        have hid' : ¬ lo.1 = layer.id := fun h => hid h.symm
        simp [List.takeWhile, List.dropWhile, hid']

theorem buildLoop_append (highest lowest : Option Pair) (wardPaths : List (Int × LatLngs))
    (allWards : List Layer) :
    buildLoop highest lowest wardPaths allWards =
      (allWards ++ (buildLoop highest lowest wardPaths []).1,
        (buildLoop highest lowest wardPaths []).2) := by
  induction wardPaths generalizing allWards with
  | nil => simp [buildLoop]
  | cons p rest ih =>
    obtain ⟨wardNum, path⟩ := p
    cases hc : calculateLayerSettings wardNum highest lowest with
    | error e => simp [buildLoop, hc]
    | ok s =>
      simp only [buildLoop, hc]
      rw [ih (allWards ++ [polygon path wardNum s]), ih ([] ++ [polygon path wardNum s])]
      simp

theorem buildLoop_ids (highest lowest : Pair) (wardPaths : List (Int × LatLngs)) :
    (buildLoop (some highest) (some lowest) wardPaths []).2 = none ∧
      (buildLoop (some highest) (some lowest) wardPaths []).1.map Layer.id =
        wardPaths.map Prod.fst := by
  induction wardPaths with
  | nil => exact ⟨rfl, rfl⟩
  | cons p rest ih =>
    obtain ⟨wardNum, path⟩ := p
    obtain ⟨s, hs⟩ := calculateLayerSettings_ok wardNum highest lowest
    have hstep : buildLoop (some highest) (some lowest) ((wardNum, path) :: rest) [] =
        buildLoop (some highest) (some lowest) rest ([] ++ [polygon path wardNum s]) := by
      simp [buildLoop, hs]
    rw [hstep, buildLoop_append]
    refine ⟨ih.1, ?_⟩
    simp [ih.2, polygon]

theorem scopeBuildLoop_eq (highest lowest : Option Pair) (wardPaths : List (Int × LatLngs))
    (allWards : List Layer) :
    scopeBuildLoop highest lowest wardPaths allWards =
      buildLoop highest lowest wardPaths allWards := by
  induction wardPaths generalizing allWards with
  | nil => rfl
  | cons p rest ih =>
    obtain ⟨wardNum, path⟩ := p
    have hsame : scopeCalculateLayerSettings wardNum highest lowest =
        calculateLayerSettings wardNum highest lowest := rfl
    cases hc : calculateLayerSettings wardNum highest lowest with
    | error e => simp [scopeBuildLoop, buildLoop, hsame, hc]
    | ok s => simp [scopeBuildLoop, buildLoop, hsame, hc, ih]

theorem ranking_valid (response : List Pair) (h : 51 ≤ response.length) :
    ∃ lowest highest : Pair, ranking response = (some lowest, some highest) := by
  obtain ⟨_, lo, _, _, _, hrlo, _, _⟩ := ranking_lowest response (by omega)
  obtain ⟨_, hi, _, _, _, hrhi, _, _⟩ := ranking_highest response h
  exact ⟨lo, hi, Prod.ext hrlo hrhi⟩

theorem redrawChart_restyle (wardPaths : List (Int × LatLngs)) (response : List Pair)
    (allWards : List Layer) :
    redrawChart wardPaths response true allWards =
      restyleLoop (ranking response).2 (ranking response).1 allWards := rfl

theorem redrawChart_build (wardPaths : List (Int × LatLngs)) (response : List Pair)
    (allWards : List Layer) :
    redrawChart wardPaths response false allWards =
      buildLoop (ranking response).2 (ranking response).1 wardPaths allWards := rfl

/-! ## Session lemmas -/

theorem updateST_stIndex (serviceTypes : List (String × ServiceType)) (i : Int) (s : Session) :
    (updateST serviceTypes i s).1.stIndex = s.stIndex := by
  unfold updateST
  cases index serviceTypes i <;> rfl

theorem updateST_allWards (serviceTypes : List (String × ServiceType)) (i : Int)
    (s : Session) : (updateST serviceTypes i s).1.allWards = s.allWards := by
  unfold updateST
  cases index serviceTypes i <;> rfl

theorem callback_stIndex (fetch : String → List Pair) (wardPaths : List (Int × LatLngs))
    (k : Nat) (s : Session) : (callback fetch wardPaths k s).1.stIndex = s.stIndex := by
  unfold callback
  cases s.pending[k]? <;> rfl

theorem step_stIndex (serviceTypes : List (String × ServiceType))
    (fetch : String → List Pair) (wardPaths : List (Int × LatLngs)) (e : Event) (s : Session) :
    (step serviceTypes fetch wardPaths e s).1.stIndex =
      s.stIndex + (if e = Event.nextST then 1 else 0) - (if e = Event.prevST then 1 else 0) := by
  cases e with
  | prevST => simp [step, updateST_stIndex]
  | nextST => simp [step, updateST_stIndex]
  | response k => simp [step, callback_stIndex]

theorem run_stIndex (serviceTypes : List (String × ServiceType))
    (fetch : String → List Pair) (wardPaths : List (Int × LatLngs)) (es : List Event)
    (s : Session) :
    (run serviceTypes fetch wardPaths es s).stIndex =
      s.stIndex + (es.count Event.nextST : Int) - (es.count Event.prevST : Int) := by
  induction es generalizing s with
  | nil => simp [run]
  | cons e es ih =>
    rw [run, ih, step_stIndex]
    cases e <;> simp [List.count_cons] <;> ring

/-- A click made while no request is pending, then answered: the state it leaves. -/
theorem answered_click (serviceTypes : List (String × ServiceType))
    (fetch : String → List Pair) (wardPaths : List (Int × LatLngs)) (i : Int) (s : Session)
    (hp : s.pending = []) :
    (callback fetch wardPaths 0 (updateST serviceTypes i s).1) =
      match index serviceTypes i with
      | none => (s, none)
      | some entry =>
        ({ s with
            heading := entry.2.name
            allWards := (redrawChart wardPaths (fetch entry.2.code) true s.allWards).1
            pending := [] },
          (redrawChart wardPaths (fetch entry.2.code) true s.allWards).2) := by
  unfold updateST
  cases index serviceTypes i with
  | none => simp [callback, hp]
  | some entry => simp [callback, hp]

theorem answered_click_pending (serviceTypes : List (String × ServiceType))
    (fetch : String → List Pair) (wardPaths : List (Int × LatLngs)) (i : Int) (s : Session)
    (hp : s.pending = []) :
    (callback fetch wardPaths 0 (updateST serviceTypes i s).1).1.pending = [] := by
  rw [answered_click serviceTypes fetch wardPaths i s hp]
  cases index serviceTypes i with
  | none => exact hp
  | some entry => rfl

theorem answered_click_frame (serviceTypes : List (String × ServiceType))
    (fetch : String → List Pair) (wardPaths : List (Int × LatLngs)) (i : Int) (s : Session)
    (hp : s.pending = []) :
    (callback fetch wardPaths 0 (updateST serviceTypes i s).1).1.allWards.map
        (fun l => (l.latlngs, l.id, l.opacity, l.weight, l.popup)) =
      s.allWards.map (fun l => (l.latlngs, l.id, l.opacity, l.weight, l.popup)) := by
  rw [answered_click serviceTypes fetch wardPaths i s hp]
  cases index serviceTypes i with
  | none => rfl
  | some entry => exact restyleLoop_frame _ _ s.allWards

/-- An answered click that completes leaves layers and heading fixed by the
index and by the frames of the layers it started from. -/
theorem answered_click_congr (serviceTypes : List (String × ServiceType))
    (fetch : String → List Pair) (wardPaths : List (Int × LatLngs)) (i : Int)
    (s s' : Session) (hp : s.pending = []) (hp' : s'.pending = [])
    (hframe : s'.allWards.map (fun l => (l.latlngs, l.id, l.opacity, l.weight, l.popup)) =
      s.allWards.map (fun l => (l.latlngs, l.id, l.opacity, l.weight, l.popup)))
    (hsent : (updateST serviceTypes i s).2 = none)
    (hok : (callback fetch wardPaths 0 (updateST serviceTypes i s).1).2 = none) :
    (callback fetch wardPaths 0 (updateST serviceTypes i s').1).1.allWards =
        (callback fetch wardPaths 0 (updateST serviceTypes i s).1).1.allWards ∧
      (callback fetch wardPaths 0 (updateST serviceTypes i s').1).1.heading =
        (callback fetch wardPaths 0 (updateST serviceTypes i s).1).1.heading := by
  rw [answered_click serviceTypes fetch wardPaths i s hp] at hok ⊢
  rw [answered_click serviceTypes fetch wardPaths i s' hp']
  cases hidx : index serviceTypes i with
  | none =>
    unfold updateST at hsent
    rw [hidx] at hsent
    simp at hsent
  | some entry =>
    rw [hidx] at hok
    simp only [redrawChart_restyle] at hok ⊢
    have h := restyleLoop_congr _ _ s.allWards s'.allWards hframe hok
    simp only [h]
    exact ⟨trivial, trivial⟩

theorem run_append (serviceTypes : List (String × ServiceType))
    (fetch : String → List Pair) (wardPaths : List (Int × LatLngs)) (es es' : List Event)
    (s : Session) :
    run serviceTypes fetch wardPaths (es ++ es') s =
      run serviceTypes fetch wardPaths es' (run serviceTypes fetch wardPaths es s) := by
  induction es generalizing s with
  | nil => rfl
  | cons e es ih =>
    show run serviceTypes fetch wardPaths (es ++ es')
        (step serviceTypes fetch wardPaths e s).1 = _
    rw [ih]
    rfl

/-- A click answered before anything else happens keeps `pending` empty and the
frames of the layers. -/
theorem answered_pair (serviceTypes : List (String × ServiceType))
    (fetch : String → List Pair) (wardPaths : List (Int × LatLngs)) (e : Event) (s : Session)
    (he : e = Event.nextST ∨ e = Event.prevST) (hp : s.pending = []) :
    (run serviceTypes fetch wardPaths [e, Event.response 0] s).pending = [] ∧
      (run serviceTypes fetch wardPaths [e, Event.response 0] s).allWards.map
          (fun l => (l.latlngs, l.id, l.opacity, l.weight, l.popup)) =
        s.allWards.map (fun l => (l.latlngs, l.id, l.opacity, l.weight, l.popup)) := by
  rcases he with rfl | rfl
  · exact ⟨answered_click_pending serviceTypes fetch wardPaths _
        { s with stIndex := s.stIndex + 1 } hp,
      answered_click_frame serviceTypes fetch wardPaths _ { s with stIndex := s.stIndex + 1 } hp⟩
  · exact ⟨answered_click_pending serviceTypes fetch wardPaths _
        { s with stIndex := s.stIndex - 1 } hp,
      answered_click_frame serviceTypes fetch wardPaths _ { s with stIndex := s.stIndex - 1 } hp⟩

/-- The state before the last click of `answeredClicks`: nothing pending, the
frames of the start, and `stIndex` two above the start. -/
theorem before_last_click (serviceTypes : List (String × ServiceType))
    (fetch : String → List Pair) (wardPaths : List (Int × LatLngs)) (s : Session)
    (hp : s.pending = []) :
    (run serviceTypes fetch wardPaths (answeredClicks.take 8) s).pending = [] ∧
      (run serviceTypes fetch wardPaths (answeredClicks.take 8) s).allWards.map
          (fun l => (l.latlngs, l.id, l.opacity, l.weight, l.popup)) =
        s.allWards.map (fun l => (l.latlngs, l.id, l.opacity, l.weight, l.popup)) ∧
      (run serviceTypes fetch wardPaths (answeredClicks.take 8) s).stIndex = s.stIndex + 2 := by
  have hlist : answeredClicks.take 8 =
      [Event.nextST, Event.response 0] ++ ([Event.nextST, Event.response 0] ++
        ([Event.nextST, Event.response 0] ++ [Event.prevST, Event.response 0])) := by decide
  refine ⟨?_, ?_, ?_⟩
  · rw [hlist, run_append, run_append, run_append]
    have h1 := answered_pair serviceTypes fetch wardPaths Event.nextST s (Or.inl rfl) hp
    have h2 := answered_pair serviceTypes fetch wardPaths Event.nextST _ (Or.inl rfl) h1.1
    have h3 := answered_pair serviceTypes fetch wardPaths Event.nextST _ (Or.inl rfl) h2.1
    exact (answered_pair serviceTypes fetch wardPaths Event.prevST _ (Or.inr rfl) h3.1).1
  · rw [hlist, run_append, run_append, run_append]
    have h1 := answered_pair serviceTypes fetch wardPaths Event.nextST s (Or.inl rfl) hp
    have h2 := answered_pair serviceTypes fetch wardPaths Event.nextST _ (Or.inl rfl) h1.1
    have h3 := answered_pair serviceTypes fetch wardPaths Event.nextST _ (Or.inl rfl) h2.1
    have h4 := answered_pair serviceTypes fetch wardPaths Event.prevST _ (Or.inr rfl) h3.1
    exact h4.2.trans (h3.2.trans (h2.2.trans h1.2))
  · rw [run_stIndex]
    have hn : (answeredClicks.take 8).count Event.nextST = 3 := by decide
    have hv : (answeredClicks.take 8).count Event.prevST = 1 := by decide
    rw [hn, hv]
    norm_num
    ring

/-! ## Style mapper -/

/-- C2: for every ward id and every pair of extremes, `calculateLayerSettings`
(and its copy `$scope.calculateLayerSettings`) returns the full-opacity base
style when the id is lowest's, otherwise the full-opacity black style when the id is
highest's, otherwise the low-opacity base style; the lowest test comes first and
there is no fourth value. -/
theorem calculateLayerSettings_cases (w : Int) (highest lowest : Pair) :
    calculateLayerSettings w (some highest) (some lowest) =
        .ok (if w = lowest.1 then { color := "#0873AD", fillOpacity := 1 }
             else if w = highest.1 then { color := "black", fillOpacity := 1 }
             else { color := "#0873AD", fillOpacity := 0.1 }) ∧
      scopeCalculateLayerSettings w (some highest) (some lowest) =
        calculateLayerSettings w (some highest) (some lowest) := by
  constructor
  · unfold calculateLayerSettings
    simp only []
    by_cases h1 : w = lowest.1
    · rw [if_pos h1, if_pos h1]
    · by_cases h2 : w = highest.1
      · rw [if_neg h1, if_neg h1, if_pos h2, if_pos h2]
      · rw [if_neg h1, if_neg h1, if_neg h2, if_neg h2]
  · rfl

/-- C3: for every pair of extremes the ranking yields from a series with distinct
ward keys, the two wards differ, lowest's ward gets the base color `#0873AD` and
highest's ward gets `black`, so the two styles differ in color; and for every pair
of extremes whatever, every ward id other than lowest's and highest's gets the
low-opacity base style. -/
theorem extremes_differ_in_color (response : List Pair) (lowest highest : Pair)
    (hkeys : (response.map Prod.fst).Nodup)
    (hr : ranking response = (some lowest, some highest)) :
    lowest.1 ≠ highest.1 ∧
      (∃ a b : Settings,
        calculateLayerSettings lowest.1 (some highest) (some lowest) = .ok a ∧
        calculateLayerSettings highest.1 (some highest) (some lowest) = .ok b ∧
        a = { color := "#0873AD", fillOpacity := 1 } ∧
        b = { color := "black", fillOpacity := 1 } ∧
        a.color ≠ b.color) ∧
      ∀ (hi lo : Pair) (w : Int), w ≠ lo.1 → w ≠ hi.1 →
        calculateLayerSettings w (some hi) (some lo) =
          .ok { color := "#0873AD", fillOpacity := 0.1 } := by
  have hne := ranking_ids_differ response lowest highest hkeys hr
  refine ⟨hne, ⟨{ color := "#0873AD", fillOpacity := 1 }, { color := "black", fillOpacity := 1 },
      ?_, ?_, rfl, rfl, by decide⟩, ?_⟩
  · simp [calculateLayerSettings]
  · simp [calculateLayerSettings, Ne.symm hne]
  · intro hi lo w h1 h2
    simp [calculateLayerSettings, h1, h2]

theorem extremes_differ_in_color_witness :
    ((1, 10) : Pair).1 ≠ ((50, 500) : Pair).1 ∧
      (∃ a b : Settings,
        calculateLayerSettings ((1, 10) : Pair).1 (some (50, 500)) (some (1, 10)) = .ok a ∧
        calculateLayerSettings ((50, 500) : Pair).1 (some (50, 500)) (some (1, 10)) = .ok b ∧
        a = { color := "#0873AD", fillOpacity := 1 } ∧
        b = { color := "black", fillOpacity := 1 } ∧
        a.color ≠ b.color) ∧
      ∀ (hi lo : Pair) (w : Int), w ≠ lo.1 → w ≠ hi.1 →
        calculateLayerSettings w (some hi) (some lo) =
          .ok { color := "#0873AD", fillOpacity := 0.1 } :=
  extremes_differ_in_color scenarioA (1, 10) (50, 500) (by decide) (by decide)

/-! ## Ranking calculator -/

/-- C1: for every raw series with at least 51 entries both extremes exist, each
is the entry at a raw position from 1 to 50 (zero-based, so never the aggregate
at position 0), and every count at those positions lies between their counts. -/
theorem ranking_bounds (response : List Pair) (h : 51 ≤ response.length) :
    ∃ (i j : Nat) (lowest highest : Pair),
      ranking response = (some lowest, some highest) ∧
      1 ≤ i ∧ i ≤ 50 ∧ response[i]? = some lowest ∧
      1 ≤ j ∧ j ≤ 50 ∧ response[j]? = some highest ∧
      ∀ (k : Nat) (e : Pair), 1 ≤ k → k ≤ 50 → response[k]? = some e →
        lowest.2 ≤ e.2 ∧ e.2 ≤ highest.2 := by
  obtain ⟨i, lo, hi1, hi2, hilo, hrlo, hmin, _⟩ := ranking_lowest response (by omega)
  obtain ⟨j, hi, hj1, hj2, hjhi, hrhi, hmax, _⟩ := ranking_highest response h
  refine ⟨i, j, lo, hi, Prod.ext hrlo hrhi, hi1, hi2, hilo, hj1, hj2, hjhi, ?_⟩
  intro k e hk1 hk2 hke
  exact ⟨hmin k e hk1 hk2 hke, hmax k e hk1 hk2 hke⟩

theorem ranking_bounds_witness :
    ∃ (i j : Nat) (lowest highest : Pair),
      ranking scenarioA = (some lowest, some highest) ∧
      1 ≤ i ∧ i ≤ 50 ∧ scenarioA[i]? = some lowest ∧
      1 ≤ j ∧ j ≤ 50 ∧ scenarioA[j]? = some highest ∧
      ∀ (k : Nat) (e : Pair), 1 ≤ k → k ≤ 50 → scenarioA[k]? = some e →
        lowest.2 ≤ e.2 ∧ e.2 ≤ highest.2 :=
  ranking_bounds scenarioA (by decide)

/-- C4, as stated, fails: on a series of 41 entries (40 wards) the ranking step
raises nothing; it returns ward 1 as lowest and `undefined` as highest. -/
theorem ranking_short_no_error :
    scenarioD.length = 41 ∧
      ranking scenarioD = (some (1, 10), none) :=
  ⟨by decide, by decide⟩

/-- C4, amended: for every raw series with fewer than 51 entries the ranking step
completes with highest `undefined`; lowest is `undefined` when there is no ward
entry and otherwise a ward entry of minimum count. -/
theorem ranking_short (response : List Pair) (h : response.length < 51) :
    (ranking response).2 = none ∧
      (response.length ≤ 1 → (ranking response).1 = none) ∧
      (2 ≤ response.length →
        ∃ (i : Nat) (lowest : Pair), 1 ≤ i ∧ response[i]? = some lowest ∧
          (ranking response).1 = some lowest ∧
          ∀ (k : Nat) (e : Pair), 1 ≤ k → response[k]? = some e → lowest.2 ≤ e.2) := by
  refine ⟨ranking_highest_none response h, ranking_lowest_none response, ?_⟩
  intro h2
  obtain ⟨i, lo, hi1, _, hilo, hrlo, hmin, _⟩ := ranking_lowest response h2
  refine ⟨i, lo, hi1, hilo, hrlo, ?_⟩
  intro k e hk1 hke
  obtain ⟨hk, _⟩ := List.getElem?_eq_some_iff.mp hke
  exact hmin k e hk1 (by omega) hke

theorem ranking_short_witness :
    (ranking scenarioD).2 = none ∧
      (scenarioD.length ≤ 1 → (ranking scenarioD).1 = none) ∧
      (2 ≤ scenarioD.length →
        ∃ (i : Nat) (lowest : Pair), 1 ≤ i ∧ scenarioD[i]? = some lowest ∧
          (ranking scenarioD).1 = some lowest ∧
          ∀ (k : Nat) (e : Pair), 1 ≤ k → scenarioD[k]? = some e → lowest.2 ≤ e.2) :=
  ranking_short scenarioD (by decide)

/-- C10: on a valid series with distinct ward keys, lowest is the earliest entry
of minimum count and highest the latest entry of maximum count among positions
1 to 50; when all 50 counts are equal, lowest is the first ward entry, highest the
50th, their wards differ, and the full-opacity style goes to exactly those two
ward ids. -/
theorem ranking_tie_break (response : List Pair) (c : Int) (h : 51 ≤ response.length)
    (hkeys : (response.map Prod.fst).Nodup) :
    (∃ (i j : Nat) (lowest highest : Pair),
        ranking response = (some lowest, some highest) ∧
        1 ≤ i ∧ i ≤ 50 ∧ response[i]? = some lowest ∧
        1 ≤ j ∧ j ≤ 50 ∧ response[j]? = some highest ∧
        (∀ (k : Nat) (e : Pair), 1 ≤ k → k ≤ 50 → response[k]? = some e →
          lowest.2 ≤ e.2 ∧ e.2 ≤ highest.2) ∧
        (∀ (k : Nat) (e : Pair), 1 ≤ k → k < i → response[k]? = some e → lowest.2 < e.2) ∧
        (∀ (k : Nat) (e : Pair), j < k → k ≤ 50 → response[k]? = some e → e.2 < highest.2)) ∧
      ((∀ e ∈ slice 1 51 response, e.2 = c) →
        ∃ first last : Pair, response[1]? = some first ∧ response[50]? = some last ∧
          ranking response = (some first, some last) ∧ first.1 ≠ last.1 ∧
          ∀ w : Int, ∃ s : Settings,
            calculateLayerSettings w (some last) (some first) = .ok s ∧
            (s.fillOpacity = 1 ↔ (w = first.1 ∨ w = last.1))) := by
  obtain ⟨i, lo, hi1, hi2, hilo, hrlo, hmin, hbefore⟩ := ranking_lowest response (by omega)
  obtain ⟨j, hi, hj1, hj2, hjhi, hrhi, hmax, hafter⟩ := ranking_highest response h
  constructor
  · refine ⟨i, j, lo, hi, Prod.ext hrlo hrhi, hi1, hi2, hilo, hj1, hj2, hjhi, ?_, hbefore, hafter⟩
    intro k e hk1 hk2 hke
    exact ⟨hmin k e hk1 hk2 hke, hmax k e hk1 hk2 hke⟩
  · intro hall
    have h1lt : 1 < response.length := by omega
    have h50lt : 50 < response.length := by omega
    have hfirst : response[1]? = some response[1] := List.getElem?_eq_getElem h1lt
    have hlast : response[50]? = some response[50] := List.getElem?_eq_getElem h50lt
    have hloc : lo.2 = c := hall lo (mem_slice_of_index response i lo hi1 hi2 hilo)
    have hhic : hi.2 = c := hall hi (mem_slice_of_index response j hi hj1 hj2 hjhi)
    have hi_eq : i = 1 := by
      by_contra hne
      have hlt := hbefore 1 response[1] (le_refl 1) (by omega) hfirst
      have := hall response[1] (mem_slice_of_index response 1 _ (le_refl 1) (by omega) hfirst)
      omega
    have hj_eq : j = 50 := by
      by_contra hne
      have hlt := hafter 50 response[50] (by omega) (le_refl 50) hlast
      have := hall response[50] (mem_slice_of_index response 50 _ (by omega) (le_refl 50) hlast)
      omega
    subst hi_eq
    subst hj_eq
    refine ⟨lo, hi, hilo, hjhi, Prod.ext hrlo hrhi, ?_, ?_⟩
    · exact keys_ne response hkeys 1 50 lo hi (by omega) hilo hjhi
    · intro w
      exact fillOpacity_full_iff w hi lo

theorem ranking_tie_break_witness :
    ∃ first last : Pair, scenarioB[1]? = some first ∧ scenarioB[50]? = some last ∧
      ranking scenarioB = (some first, some last) ∧ first.1 ≠ last.1 ∧
      ∀ w : Int, ∃ s : Settings,
        calculateLayerSettings w (some last) (some first) = .ok s ∧
        (s.fillOpacity = 1 ↔ (w = first.1 ∨ w = last.1)) :=
  (ranking_tie_break scenarioB 42 (by decide) (by decide)).2 (by decide)

/-! ## View synchronizer -/

/-- C5, as stated, fails: with the 40 wards of Scenario D, whose lowest is
ward 1, the restyle pass turns the layer of ward 1 from black to the base color and
only then stops with a `TypeError`, at the layer of ward 2. -/
theorem short_response_restyles_ward_one :
    scenarioD.length = 41 ∧
      (redrawChart wardPathsSample scenarioDesc false []).1.map
          (fun l => (l.id, l.color, l.fillOpacity)) =
        [(1, "black", 1), (2, "#0873AD", 0.1), (3, "#0873AD", 0.1)] ∧
      (redrawChart wardPathsSample scenarioD true
          (redrawChart wardPathsSample scenarioDesc false []).1).1.map
          (fun l => (l.id, l.color, l.fillOpacity)) =
        [(1, "#0873AD", 1), (2, "#0873AD", 0.1), (3, "#0873AD", 0.1)] ∧
      (redrawChart wardPathsSample scenarioD true
          (redrawChart wardPathsSample scenarioDesc false []).1).2 = some JsError.TypeError :=
  ⟨by decide, rfl, rfl, rfl⟩

/-- C5, amended: with fewer than 50 ward entries the restyle pass restyles, to the
full-opacity base style, the leading layers whose id is lowest's ward id, and
leaves the first layer with another id (every layer, when there is no ward entry)
and all layers after it exactly as they were; it ends with a `TypeError` unless
no such layer exists. -/
theorem restyle_short (wardPaths : List (Int × LatLngs)) (response : List Pair)
    (allWards : List Layer) (h : response.length < 51) :
    redrawChart wardPaths response true allWards =
      ((allWards.takeWhile
            (fun l => decide ((ranking response).1.map Prod.fst = some l.id))).map
          (fun l => l.setStyle { color := "#0873AD", fillOpacity := 1 }) ++
        allWards.dropWhile (fun l => decide ((ranking response).1.map Prod.fst = some l.id)),
       if allWards.dropWhile
            (fun l => decide ((ranking response).1.map Prod.fst = some l.id)) = [] then none
       else some JsError.TypeError) := by
  rw [redrawChart_restyle, ranking_highest_none response h]
  exact restyleLoop_short _ allWards

theorem restyle_short_witness :
    redrawChart wardPathsSample scenarioD true sessionSample.allWards =
      ((sessionSample.allWards.takeWhile
            (fun l => decide ((ranking scenarioD).1.map Prod.fst = some l.id))).map
          (fun l => l.setStyle { color := "#0873AD", fillOpacity := 1 }) ++
        sessionSample.allWards.dropWhile
          (fun l => decide ((ranking scenarioD).1.map Prod.fst = some l.id)),
       if sessionSample.allWards.dropWhile
            (fun l => decide ((ranking scenarioD).1.map Prod.fst = some l.id)) = [] then none
       else some JsError.TypeError) :=
  restyle_short wardPathsSample scenarioD sessionSample.allWards (by decide)

/-- C6, as stated, fails in two ways.  With each click answered before the next
and service 1 answering the 40 wards of Scenario D, ward 2 stays black from
service 2 where a direct `updateST(1)` leaves it at the default.  With valid
answers arriving after all five clicks, service 2 last, ward 1 ends black where a
direct `updateST(1)` makes it the base color.  `stIndex` is 1 either way. -/
theorem navigation_depends_on_answers :
    (run serviceTypesSample fetchShort wardPathsSample answeredClicks sessionSample).stIndex = 1 ∧
      (run serviceTypesSample fetchShort wardPathsSample answeredClicks
          sessionSample).allWards.map (fun l => (l.id, l.color, l.fillOpacity)) =
        [(1, "#0873AD", 1), (2, "black", 1), (3, "#0873AD", 0.1)] ∧
      (callback fetchShort wardPathsSample 0
          (updateST serviceTypesSample 1 sessionSample).1).1.allWards.map
          (fun l => (l.id, l.color, l.fillOpacity)) =
        [(1, "#0873AD", 1), (2, "#0873AD", 0.1), (3, "#0873AD", 0.1)] ∧
      (run serviceTypesSample fetchSample wardPathsSample overlappingClicks
          sessionSample).stIndex = 1 ∧
      (run serviceTypesSample fetchSample wardPathsSample overlappingClicks
          sessionSample).allWards.map (fun l => (l.id, l.color, l.fillOpacity)) =
        [(1, "black", 1), (2, "#0873AD", 0.1), (3, "#0873AD", 0.1)] ∧
      (callback fetchSample wardPathsSample 0
          (updateST serviceTypesSample 1 sessionSample).1).1.allWards.map
          (fun l => (l.id, l.color, l.fillOpacity)) =
        [(1, "#0873AD", 1), (2, "#0873AD", 0.1), (3, "#0873AD", 0.1)] :=
  ⟨rfl, rfl, rfl, rfl, rfl, rfl⟩

/-- C6, amended: after any sequence of clicks and answers `stIndex` has grown by
the number of next clicks minus the number of previous clicks, so three next and
two previous clicks from 0 leave 1; and when no request is pending at the start,
each click is answered before the next, and a direct `updateST(1)` followed by its
answer completes without exception, the layers (and the heading) after the five
clicks are those of the direct `updateST(1)`, whatever the intermediate selections
left. -/
theorem navigation (serviceTypes : List (String × ServiceType)) (fetch : String → List Pair)
    (wardPaths : List (Int × LatLngs)) (s : Session) (h0 : s.stIndex = 0)
    (hp : s.pending = [])
    (hsent : (updateST serviceTypes 1 s).2 = none)
    (hok : (callback fetch wardPaths 0 (updateST serviceTypes 1 s).1).2 = none) :
    (∀ (es : List Event) (s' : Session),
        (run serviceTypes fetch wardPaths es s').stIndex =
          s'.stIndex + (es.count Event.nextST : Int) - (es.count Event.prevST : Int)) ∧
      (run serviceTypes fetch wardPaths answeredClicks s).stIndex = 1 ∧
      (run serviceTypes fetch wardPaths answeredClicks s).allWards =
        (callback fetch wardPaths 0 (updateST serviceTypes 1 s).1).1.allWards ∧
      (run serviceTypes fetch wardPaths answeredClicks s).heading =
        (callback fetch wardPaths 0 (updateST serviceTypes 1 s).1).1.heading := by
  have hidx : (run serviceTypes fetch wardPaths answeredClicks s).stIndex = 1 := by
    rw [run_stIndex, h0]
    have hn : answeredClicks.count Event.nextST = 3 := by decide
    have hv : answeredClicks.count Event.prevST = 2 := by decide
    rw [hn, hv]
    norm_num
  obtain ⟨hp8, hframe8, hidx8⟩ := before_last_click serviceTypes fetch wardPaths s hp
  have hrun : run serviceTypes fetch wardPaths answeredClicks s =
      run serviceTypes fetch wardPaths [Event.prevST, Event.response 0]
        (run serviceTypes fetch wardPaths (answeredClicks.take 8) s) := by
    have hlist : answeredClicks = answeredClicks.take 8 ++ [Event.prevST, Event.response 0] := by
      decide
    conv_lhs => rw [hlist]
    exact run_append serviceTypes fetch wardPaths _ _ s
  rw [h0] at hidx8
  refine ⟨run_stIndex serviceTypes fetch wardPaths, hidx, ?_, ?_⟩
  · rw [hrun]
    generalize run serviceTypes fetch wardPaths (answeredClicks.take 8) s = t at hp8 hframe8 hidx8
    have hone : t.stIndex - 1 = 1 := by rw [hidx8]; norm_num
    have hlast := answered_click_congr serviceTypes fetch wardPaths 1 s
      { t with stIndex := t.stIndex - 1 } hp hp8 hframe8 hsent hok
    show (callback fetch wardPaths 0
      (updateST serviceTypes (t.stIndex - 1) { t with stIndex := t.stIndex - 1 }).1).1.allWards = _
    rw [hone] at hlast ⊢
    exact hlast.1
  · rw [hrun]
    generalize run serviceTypes fetch wardPaths (answeredClicks.take 8) s = t at hp8 hframe8 hidx8
    have hone : t.stIndex - 1 = 1 := by rw [hidx8]; norm_num
    have hlast := answered_click_congr serviceTypes fetch wardPaths 1 s
      { t with stIndex := t.stIndex - 1 } hp hp8 hframe8 hsent hok
    show (callback fetch wardPaths 0
      (updateST serviceTypes (t.stIndex - 1) { t with stIndex := t.stIndex - 1 }).1).1.heading = _
    rw [hone] at hlast ⊢
    exact hlast.2

theorem navigation_witness :
    (∀ (es : List Event) (s' : Session),
        (run serviceTypesSample fetchSample wardPathsSample es s').stIndex =
          s'.stIndex + (es.count Event.nextST : Int) - (es.count Event.prevST : Int)) ∧
      (run serviceTypesSample fetchSample wardPathsSample answeredClicks sessionSample).stIndex =
        1 ∧
      (run serviceTypesSample fetchSample wardPathsSample answeredClicks sessionSample).allWards =
        (callback fetchSample wardPathsSample 0
          (updateST serviceTypesSample 1 sessionSample).1).1.allWards ∧
      (run serviceTypesSample fetchSample wardPathsSample answeredClicks sessionSample).heading =
        (callback fetchSample wardPathsSample 0
          (updateST serviceTypesSample 1 sessionSample).1).1.heading :=
  navigation serviceTypesSample fetchSample wardPathsSample sessionSample rfl rfl rfl rfl

/-- C7: running the restyle loop a second time with the same extremes changes
nothing: the layers and the outcome are those of the first run, for the loop
itself and for the restyle branch of `redrawChart` and of `$scope.updateST`. -/
theorem restyle_idempotent (highest lowest : Option Pair) (wardPaths : List (Int × LatLngs))
    (response : List Pair) (allWards : List Layer) :
    restyleLoop highest lowest (restyleLoop highest lowest allWards).1 =
        restyleLoop highest lowest allWards ∧
      redrawChart wardPaths response true (redrawChart wardPaths response true allWards).1 =
        redrawChart wardPaths response true allWards ∧
      scopeUpdateST wardPaths response true (scopeUpdateST wardPaths response true allWards).1 =
        scopeUpdateST wardPaths response true allWards :=
  ⟨restyleLoop_idem highest lowest allWards, restyleLoop_idem _ _ allWards,
    restyleLoop_idem _ _ allWards⟩

/-- C8, as stated, fails: a second run of the first-draw branch raises nothing;
in `redrawChart` it leaves two layers for ward 1, in `$scope.updateST` it
replaces the black layer of ward 1 by a new one. -/
theorem second_build_undetected :
    (redrawChart [(1, [])] scenarioA false (redrawChart [(1, [])] scenarioA false []).1).2 =
        none ∧
      (redrawChart [(1, [])] scenarioA false
          (redrawChart [(1, [])] scenarioA false []).1).1.map
          (fun l => (l.id, l.color, l.fillOpacity)) =
        [(1, "#0873AD", 1), (1, "#0873AD", 1)] ∧
      (scopeUpdateST [(1, [])] scenarioDesc false []).1.map
          (fun l => (l.id, l.color, l.fillOpacity)) = [(1, "black", 1)] ∧
      scopeUpdateST [(1, [])] scenarioA false (scopeUpdateST [(1, [])] scenarioDesc false []).1 =
        ([polygon [] 1 { color := "#0873AD", fillOpacity := 1 }], none) :=
  ⟨rfl, rfl, rfl, rfl⟩

/-- C8, amended: on a valid response the first-draw branch never fails, whatever
`allWards` holds: `redrawChart` appends one new layer per ward path, in order and
with that path's ward id, to the layers already there, so that a second run
leaves every ward id of `wardPaths` twice; `$scope.updateST` returns just the new
layers. -/
theorem build_appends (wardPaths : List (Int × LatLngs)) (response : List Pair)
    (allWards : List Layer) (h : 51 ≤ response.length) :
    redrawChart wardPaths response false allWards =
        (allWards ++ (redrawChart wardPaths response false []).1, none) ∧
      (redrawChart wardPaths response false []).1.map Layer.id = wardPaths.map Prod.fst ∧
      (redrawChart wardPaths response false
          (redrawChart wardPaths response false []).1).1.map Layer.id =
        wardPaths.map Prod.fst ++ wardPaths.map Prod.fst ∧
      scopeUpdateST wardPaths response false allWards =
        redrawChart wardPaths response false [] := by
  obtain ⟨lo, hi, hr⟩ := ranking_valid response h
  have hids := buildLoop_ids hi lo wardPaths
  have happ : ∀ ls : List Layer, redrawChart wardPaths response false ls =
      (ls ++ (redrawChart wardPaths response false []).1, none) := by
    intro ls
    rw [redrawChart_build, redrawChart_build, buildLoop_append, hr]
    simp only [hids.1]
  have hid1 : (redrawChart wardPaths response false []).1.map Layer.id =
      wardPaths.map Prod.fst := by
    rw [redrawChart_build, hr]
    exact hids.2
  refine ⟨happ allWards, hid1, ?_, ?_⟩
  · rw [happ (redrawChart wardPaths response false []).1]
    simp only [List.map_append, hid1]
  · rw [redrawChart_build]
    exact scopeBuildLoop_eq _ _ wardPaths []

theorem build_appends_witness :
    redrawChart wardPathsSample scenarioA false sessionSample.allWards =
        (sessionSample.allWards ++ (redrawChart wardPathsSample scenarioA false []).1, none) ∧
      (redrawChart wardPathsSample scenarioA false []).1.map Layer.id =
        wardPathsSample.map Prod.fst ∧
      (redrawChart wardPathsSample scenarioA false
          (redrawChart wardPathsSample scenarioA false []).1).1.map Layer.id =
        wardPathsSample.map Prod.fst ++ wardPathsSample.map Prod.fst ∧
      scopeUpdateST wardPathsSample scenarioA false sessionSample.allWards =
        redrawChart wardPathsSample scenarioA false [] :=
  build_appends wardPathsSample scenarioA sessionSample.allWards (by decide)

/-- C9: on a valid response the restyle branch completes and returns as many
layers as it was given, each with its coordinates, id, opacity, weight and popup
unchanged; only `color` and `fillOpacity` can differ. -/
theorem restyle_frame (wardPaths : List (Int × LatLngs)) (response : List Pair)
    (allWards : List Layer) (h : 51 ≤ response.length) :
    (redrawChart wardPaths response true allWards).2 = none ∧
      (redrawChart wardPaths response true allWards).1.length = allWards.length ∧
      (redrawChart wardPaths response true allWards).1.map
          (fun l => (l.latlngs, l.id, l.opacity, l.weight, l.popup)) =
        allWards.map (fun l => (l.latlngs, l.id, l.opacity, l.weight, l.popup)) := by
  obtain ⟨lo, hi, hr⟩ := ranking_valid response h
  have hframe := restyleLoop_frame (ranking response).2 (ranking response).1 allWards
  refine ⟨?_, ?_, hframe⟩
  · rw [redrawChart_restyle, hr]
    exact restyleLoop_no_error hi lo allWards
  · have := congrArg List.length hframe
    simpa using this

theorem restyle_frame_witness :
    (redrawChart wardPathsSample scenarioDesc true sessionSample.allWards).2 = none ∧
      (redrawChart wardPathsSample scenarioDesc true sessionSample.allWards).1.length =
        sessionSample.allWards.length ∧
      (redrawChart wardPathsSample scenarioDesc true sessionSample.allWards).1.map
          (fun l => (l.latlngs, l.id, l.opacity, l.weight, l.popup)) =
        sessionSample.allWards.map (fun l => (l.latlngs, l.id, l.opacity, l.weight, l.popup)) :=
  restyle_frame wardPathsSample scenarioDesc sessionSample.allWards (by decide)

end ChicagoWorks
